import Mathlib

/-!
Verification development for the inwasm runtime Loader and its predecessor
EmWasm, shallowly embedded from the TypeScript sources
(`src/unnamed/part_000` for `InWasm`, `src/src/emwasm/definitions.ts` for
`EmWasm`).  Machine bytes are `Nat` values below 256, base64 data is a
`String`, host engine artifacts (modules, instances) are records tagged with
a fresh identity so that reference equality of the JS objects is expressible,
and every accessor invocation is a pure state transformer over the closure
cache plus a trace of the decode / compile / instantiate work it performs.
-/

namespace InwasmSpec

/-! ## Base64 codec

The runtime helper `_dec` delegates to the platform (`Buffer.from(s, "base64")`
when a binary-safe decoder exists, otherwise `atob` plus a per-character
code-unit copy).  Both platform decoders are external collaborators, not
repository code; they are modelled from the spec as binary-exact base64
decoding (spec 4.4).  The codec below is the standard RFC 4648 alphabet. -/

def b64chars : List Char :=
  ['A','B','C','D','E','F','G','H','I','J','K','L','M',
   'N','O','P','Q','R','S','T','U','V','W','X','Y','Z',
   'a','b','c','d','e','f','g','h','i','j','k','l','m',
   'n','o','p','q','r','s','t','u','v','w','x','y','z',
   '0','1','2','3','4','5','6','7','8','9','+','/']

/-- Character of a sextet value. -/
def encChar (n : Nat) : Char := b64chars.getD n 'A'

/-- Sextet value of an alphabet character. -/
def decChar (c : Char) : Nat := b64chars.indexOf c

/-- Base64 encoding of a byte list (bytes are `Nat`s below 256),
three bytes to four characters, `=`-padded. -/
def b64encode : List Nat → List Char
  | [] => []
  | [a] => [encChar (a / 4), encChar (a % 4 * 16), '=', '=']
  | [a, b] => [encChar (a / 4), encChar (a % 4 * 16 + b / 16), encChar (b % 16 * 4), '=']
  | a :: b :: c :: rest =>
      encChar (a / 4) :: encChar (a % 4 * 16 + b / 16) ::
      encChar (b % 16 * 4 + c / 64) :: encChar (c % 64) :: b64encode rest

/-- Base64 decoding of a character list, four characters to three bytes,
honouring `=` padding. -/
def b64decodeL : List Char → List Nat
  | c0 :: c1 :: c2 :: c3 :: rest =>
      let s0 := decChar c0
      let s1 := decChar c1
      if c2 = '=' then [s0 * 4 + s1 / 16]
      else
        let s2 := decChar c2
        if c3 = '=' then [s0 * 4 + s1 / 16, s1 % 16 * 16 + s2 / 4]
        else (s0 * 4 + s1 / 16) :: (s1 % 16 * 16 + s2 / 4) ::
             (s2 % 4 * 64 + decChar c3) :: b64decodeL rest
  | _ => []

/-- String-level decoder, the shape `atob`/`Buffer.from` consume. -/
def b64decodeS (s : String) : List Nat := b64decodeL s.data

/-- String-level encoder. -/
def b64encodeS (bs : List Nat) : String := String.mk (b64encode bs)

theorem decChar_encChar : ∀ n < 64, decChar (encChar n) = n := by
  decide

theorem encChar_ne_pad : ∀ n < 64, encChar n ≠ '=' := by
  decide

/-- Round trip of the codec: decoding an encoded byte list gives it back. -/
theorem b64decodeL_b64encode (bs : List Nat) (h : ∀ b ∈ bs, b < 256) :
    b64decodeL (b64encode bs) = bs := by
  induction bs using b64encode.induct with
  | case1 => simp [b64encode, b64decodeL]
  | case2 a =>
      have ha : a < 256 := h a (by simp)
      have h0 : a / 4 < 64 := by omega
      have h1 : a % 4 * 16 < 64 := by omega
      simp only [b64encode, b64decodeL, if_pos rfl]
      rw [decChar_encChar _ h0, decChar_encChar _ h1]
      simp
      omega
  | case3 a b =>
      have ha : a < 256 := h a (by simp)
      have hb : b < 256 := h b (by simp)
      have h0 : a / 4 < 64 := by omega
      have h1 : a % 4 * 16 + b / 16 < 64 := by omega
      have h2 : b % 16 * 4 < 64 := by omega
      simp only [b64encode, b64decodeL, if_neg (encChar_ne_pad _ h2), if_pos rfl]
      rw [decChar_encChar _ h0, decChar_encChar _ h1, decChar_encChar _ h2]
      simp
      omega
  | case4 a b c rest ih =>
      have ha : a < 256 := h a (by simp)
      have hb : b < 256 := h b (by simp)
      have hc : c < 256 := h c (by simp)
      have h0 : a / 4 < 64 := by omega
      have h1 : a % 4 * 16 + b / 16 < 64 := by omega
      have h2 : b % 16 * 4 + c / 64 < 64 := by omega
      have h3 : c % 64 < 64 := by omega
      simp only [b64encode, b64decodeL, if_neg (encChar_ne_pad _ h2),
                 if_neg (encChar_ne_pad _ h3)]
      rw [decChar_encChar _ h0, decChar_encChar _ h1, decChar_encChar _ h2,
          decChar_encChar _ h3]
      rw [ih (fun x hx => h x (by simp [hx]))]
      simp only [List.cons.injEq]
      refine ⟨by omega, by omega, by omega, trivial⟩

/-! ## Runtime helpers `_dec` and `_env`

Both source files define byte-identical helpers:

  function _dec(s) {
    if (typeof Buffer !== 'undefined') return Buffer.from(s, 'base64');
    const bs = atob(s);
    const r = new Uint8Array(bs.length);
    for (let i = 0; i < r.length; ++i) r[i] = bs.charCodeAt(i);
    return r;
  }
  function _env(env) { return env ? { env: env } : undefined }

`Buffer.from` and `atob` are platform functions.  Modelled from the spec
(4.4): a binary-safe base64 decoder, respectively base64 decoding to an
ASCII string whose code units are the bytes. -/

/-- Modelled from the spec: the platform binary-safe decoder
`Buffer.from(s, "base64")` (binary-exact base64 decode). -/
def bufferFromBase64 (s : String) : List Nat := b64decodeS s

/-- Modelled from the spec: the platform `atob`, decoding base64 to a string
whose character code units are the decoded bytes. -/
def atobModel (s : String) : String := String.mk ((b64decodeS s).map Char.ofNat)

/-- The runtime helper `_dec`.  `hasBuffer` reflects
`typeof Buffer !== 'undefined'`; the fallback branch builds a `Uint8Array`
whose entries are the code units of the `atob` result. -/
def _dec (hasBuffer : Bool) (s : String) : List Nat :=
  if hasBuffer then bufferFromBase64 s
  else (atobModel s).data.map Char.toNat

/-- The runtime helper `_env`: no import object for a falsy argument,
otherwise a single-entry object whose key is the literal string "env".
An object is modelled as an association list; `none` stands for the absent
(`undefined`) argument/result, which JS distinguishes from an empty object. -/
def _env {Env : Type} (env : Option Env) : Option (List (String × Env)) :=
  match env with
  | none => none
  | some v => some [("env", v)]

theorem char_toNat_ofNat_of_byte {b : Nat} (h : b < 256) :
    (Char.ofNat b).toNat = b := by
  have hv : b.isValidChar := Or.inl (by omega)
  rw [Char.ofNat, dif_pos hv]
  rfl

/-- Both branches of `_dec` decode base64 binary-exactly: on an encoded byte
list they agree and return the original bytes. -/
theorem _dec_roundtrip (hasBuffer : Bool) (bs : List Nat)
    (h : ∀ b ∈ bs, b < 256) : _dec hasBuffer (b64encodeS bs) = bs := by
  cases hasBuffer with
  | true =>
      simp [_dec, bufferFromBase64, b64decodeS, b64encodeS,
            b64decodeL_b64encode bs h]
  | false =>
      simp only [_dec, Bool.false_eq_true, if_false, atobModel, b64decodeS,
                 b64encodeS]
      rw [b64decodeL_b64encode bs h]
      rw [List.map_map]
      refine List.map_congr_left ?_ |>.trans (List.map_id bs)
      intro b hb
      exact char_toNat_ofNat_of_byte (h b hb)

/-! ## Data model

`OutputType` and `OutputMode` are `const enum`s (INSTANCE = 0, MODULE = 1,
BYTES = 2; ASYNC = 0, SYNC = 1).  The compiled Definition shape carries
`t` (output type tag), `s` (true = SYNC), `d` (base64 data) and optionally
`e` (environment import); the authoring shape has no `d`.  The Loader only
ever reads `t`, `s`, `d`, `e` (destructured on entry), `name`/`code` stand
for the authoring payload handed to the capture context.  `e` holds an
arbitrary host value, so the Definition is parametric in `Env`; `none`
models an absent or otherwise falsy `e`. -/

inductive OutputType where
  | INSTANCE
  | MODULE
  | BYTES
deriving DecidableEq

structure IWasmDefinition (Env : Type) where
  name : String
  t : OutputType
  s : Bool
  d : Option String
  e : Option Env
  code : String

/-- JS truthiness of the `d` property: absent (`undefined`) and the empty
string are falsy, every other string is truthy. -/
def truthyStr : Option String → Bool
  | none => false
  | some s => !s.isEmpty

/-- A host engine Module: a fresh object identity plus the bytes it was
compiled from.  Equal `id`s model reference equality of the JS object. -/
structure WModule where
  id : Nat
  src : List Nat
deriving DecidableEq

/-- A host engine Instance: fresh identity, the module it was instantiated
from, that module's bytes, and the import object passed to instantiation. -/
structure WInstance (Env : Type) where
  id : Nat
  modId : Nat
  src : List Nat
  imports : Option (List (String × Env))
deriving DecidableEq

/-- Work performed against the codec / host engine during one call. -/
inductive HostOp where
  | decodeOp
  | compileOp
  | instFromModOp
  | instFromBytesOp
deriving DecidableEq

/-- Host engine behavior for one accessor invocation: whether a compile
operation, respectively an instantiate operation, issued during this call
fails, and with which (opaque) host error value. -/
structure HostBeh where
  compileErr : Option Nat
  instErr : Option Nat

/-- The host behavior on which every operation succeeds. -/
def benign : HostBeh := ⟨none, none⟩

/-- The closure-scoped mutable cache of one InWasm accessor (`let bytes`,
`let mod`) together with the host's fresh-identity counter. -/
structure LoaderState where
  bytes : Option (List Nat)
  mod : Option WModule
  nextId : Nat
deriving DecidableEq

/-- Value produced by one accessor invocation.  `pResolved` is a promise
made with `Promise.resolve` (already resolved when returned), `pPending` a
promise that resolves only after host engine work, `pRejected` a promise
rejecting with a host error. -/
inductive CallRes (Env : Type) where
  | rBytes : List Nat → CallRes Env
  | rMod : WModule → CallRes Env
  | rInst : WInstance Env → CallRes Env
  | pResolved : CallRes Env → CallRes Env
  | pPending : CallRes Env → CallRes Env
  | pRejected : Nat → CallRes Env
deriving DecidableEq

variable {Env : Type}

/-! ## The InWasm Loader (src/unnamed/part_000, lines 332-365)

The entry point checks `(def as any).d` (JS truthiness), destructures
`t, s, d, e` once, and returns a closure over the cache slots `bytes` and
`mod`.  `inwasmCall` is one invocation of that closure: a transformer of the
`LoaderState`, parametrized by the host behavior for this call, yielding the
returned value (or thrown host error), the new state and the trace of
decode / compile / instantiate work performed. -/

/-- The subexpression `bytes || (bytes = _dec(d))`: return the cached
byte sequence, or decode `d` and fill the slot (a `Uint8Array` is always
truthy, so a filled slot is never re-decoded). -/
def getBytes (hasBuffer : Bool) (d : String) (σ : LoaderState) :
    List Nat × LoaderState × List HostOp :=
  match σ.bytes with
  | some b => (b, σ, [])
  | none =>
      let b := _dec hasBuffer d
      (b, { σ with bytes := some b }, [HostOp.decodeOp])

/-- One invocation of the accessor returned by `InWasm` for a compiled
Definition, branch by branch from the source:

  BYTES:    sync  `bytes || (bytes = _dec(d))`,
            async `Promise.resolve(bytes || (bytes = _dec(d)))`;
  MODULE:   sync  `mod || (mod = new W.Module(bytes || ...))`,
            async `mod ? Promise.resolve(mod)
                       : W.compile(bytes || ...).then(m => mod = m)`;
  INSTANCE: sync  `new W.Instance(mod || (mod = new W.Module(...)), _env(e))`,
            async `mod ? W.instantiate(mod, _env(e))
                       : W.instantiate(bytes || ..., _env(e))
                           .then(r => (mod = r.module) && r.instance)`.

A failing synchronous host constructor throws (`Except.error`); a failing
asynchronous host call returns a rejecting promise (`pRejected`).  In the
sync INSTANCE branch the argument `mod = new W.Module(...)` completes before
the `Instance` constructor runs, so the module is cached even when
instantiation then throws. -/
def inwasmCall (hasBuffer : Bool) (t : OutputType) (s : Bool) (d : String)
    (e : Option Env) (σ : LoaderState) (h : HostBeh) :
    Except Nat (CallRes Env) × LoaderState × List HostOp :=
  match t with
  | .BYTES =>
      let (b, σ', ops) := getBytes hasBuffer d σ
      if s then (.ok (.rBytes b), σ', ops)
      else (.ok (.pResolved (.rBytes b)), σ', ops)
  | .MODULE =>
      if s then
        match σ.mod with
        | some m => (.ok (.rMod m), σ, [])
        | none =>
            let (b, σ', ops) := getBytes hasBuffer d σ
            match h.compileErr with
            | some err => (.error err, σ', ops ++ [HostOp.compileOp])
            | none =>
                let m : WModule := ⟨σ'.nextId, b⟩
                (.ok (.rMod m),
                 { σ' with mod := some m, nextId := σ'.nextId + 1 },
                 ops ++ [HostOp.compileOp])
      else
        match σ.mod with
        | some m => (.ok (.pResolved (.rMod m)), σ, [])
        | none =>
            let (b, σ', ops) := getBytes hasBuffer d σ
            match h.compileErr with
            | some err => (.ok (.pRejected err), σ', ops ++ [HostOp.compileOp])
            | none =>
                let m : WModule := ⟨σ'.nextId, b⟩
                (.ok (.pPending (.rMod m)),
                 { σ' with mod := some m, nextId := σ'.nextId + 1 },
                 ops ++ [HostOp.compileOp])
  | .INSTANCE =>
      if s then
        match σ.mod with
        | some m =>
            match h.instErr with
            | some err => (.error err, σ, [HostOp.instFromModOp])
            | none =>
                (.ok (.rInst ⟨σ.nextId, m.id, m.src, _env e⟩),
                 { σ with nextId := σ.nextId + 1 }, [HostOp.instFromModOp])
        | none =>
            let (b, σ', ops) := getBytes hasBuffer d σ
            match h.compileErr with
            | some err => (.error err, σ', ops ++ [HostOp.compileOp])
            | none =>
                let m : WModule := ⟨σ'.nextId, b⟩
                let σ'' := { σ' with mod := some m, nextId := σ'.nextId + 1 }
                match h.instErr with
                | some err =>
                    (.error err, σ'', ops ++ [HostOp.compileOp, HostOp.instFromModOp])
                | none =>
                    (.ok (.rInst ⟨σ''.nextId, m.id, m.src, _env e⟩),
                     { σ'' with nextId := σ''.nextId + 1 },
                     ops ++ [HostOp.compileOp, HostOp.instFromModOp])
      else
        match σ.mod with
        | some m =>
            match h.instErr with
            | some err => (.ok (.pRejected err), σ, [HostOp.instFromModOp])
            | none =>
                (.ok (.pPending (.rInst ⟨σ.nextId, m.id, m.src, _env e⟩)),
                 { σ with nextId := σ.nextId + 1 }, [HostOp.instFromModOp])
        | none =>
            let (b, σ', ops) := getBytes hasBuffer d σ
            match h.compileErr, h.instErr with
            | some err, _ =>
                (.ok (.pRejected err), σ', ops ++ [HostOp.instFromBytesOp])
            | none, some err =>
                (.ok (.pRejected err), σ', ops ++ [HostOp.instFromBytesOp])
            | none, none =>
                let m : WModule := ⟨σ'.nextId, b⟩
                (.ok (.pPending (.rInst ⟨σ'.nextId + 1, m.id, b, _env e⟩)),
                 { σ' with mod := some m, nextId := σ'.nextId + 2 },
                 ops ++ [HostOp.instFromBytesOp])

/-- Outcome of the `InWasm` entry point: an accessor closure (captured
`t, s, d, e` with both cache slots empty), a registration with the capture
context (which received exactly the passed Definition), or the thrown
Loader error. -/
inductive LoaderOutcome (Env : Type) where
  | accessor (t : OutputType) (s : Bool) (d : String) (e : Option Env)
  | registered (dfn : IWasmDefinition Env)
  | failure (msg : String)

/-- The `InWasm` entry point.  `ctx` models whether the ambient `_wasmCtx`
is defined (`typeof _wasmCtx === 'undefined'`); the entry point itself
performs no codec or host engine work (second component). -/
def InWasm (ctx : Option Unit) (dfn : IWasmDefinition Env) :
    LoaderOutcome Env × List HostOp :=
  if truthyStr dfn.d then
    (.accessor dfn.t dfn.s (dfn.d.getD "") dfn.e, [])
  else
    match ctx with
    | none => (.failure "must run \"inwasm\"", [])
    | some _ => (.registered dfn, [])

/-- Run a list of accessor invocations, returning the final state. -/
def runSeq (hasBuffer : Bool) (t : OutputType) (s : Bool) (d : String)
    (e : Option Env) (σ : LoaderState) : List HostBeh → LoaderState
  | [] => σ
  | h :: hs => runSeq hasBuffer t s d e (inwasmCall hasBuffer t s d e σ h).2.1 hs

/-- Operations performed across a list of accessor invocations. -/
def runSeqOps (hasBuffer : Bool) (t : OutputType) (s : Bool) (d : String)
    (e : Option Env) (σ : LoaderState) : List HostBeh → List HostOp
  | [] => []
  | h :: hs =>
      (inwasmCall hasBuffer t s d e σ h).2.2 ++
      runSeqOps hasBuffer t s d e (inwasmCall hasBuffer t s d e σ h).2.1 hs

/-! ## The EmWasm Loader (src/src/emwasm/definitions.ts, lines 329-356)

Same entry check and destructuring, but the bytes are decoded eagerly at
entry (`const bytes = _dec(d)`), there are no cache slots, and every
MODULE / INSTANCE call issues fresh host engine work:

  BYTES:    sync  `() => bytes`, async `() => Promise.resolve(bytes)`;
  MODULE:   sync  `() => new W.Module(bytes)`, async `() => W.compile(bytes)`;
  INSTANCE: sync  `() => new W.Instance(new W.Module(bytes), _env(e))`,
            async `() => W.instantiate(bytes, _env(e)).then(r => r.instance)`. -/

/-- One invocation of the accessor returned by `EmWasm`: no cache, only the
host fresh-identity counter `n` is threaded. -/
def emwasmCall (t : OutputType) (s : Bool) (b : List Nat) (e : Option Env)
    (n : Nat) (h : HostBeh) : Except Nat (CallRes Env) × Nat × List HostOp :=
  match t with
  | .BYTES =>
      if s then (.ok (.rBytes b), n, [])
      else (.ok (.pResolved (.rBytes b)), n, [])
  | .MODULE =>
      if s then
        match h.compileErr with
        | some err => (.error err, n, [HostOp.compileOp])
        | none => (.ok (.rMod ⟨n, b⟩), n + 1, [HostOp.compileOp])
      else
        match h.compileErr with
        | some err => (.ok (.pRejected err), n, [HostOp.compileOp])
        | none => (.ok (.pPending (.rMod ⟨n, b⟩)), n + 1, [HostOp.compileOp])
  | .INSTANCE =>
      if s then
        match h.compileErr with
        | some err => (.error err, n, [HostOp.compileOp])
        | none =>
            match h.instErr with
            | some err => (.error err, n + 1, [HostOp.compileOp, HostOp.instFromModOp])
            | none =>
                (.ok (.rInst ⟨n + 1, n, b, _env e⟩), n + 2,
                 [HostOp.compileOp, HostOp.instFromModOp])
      else
        match h.compileErr, h.instErr with
        | some err, _ => (.ok (.pRejected err), n, [HostOp.instFromBytesOp])
        | none, some err => (.ok (.pRejected err), n, [HostOp.instFromBytesOp])
        | none, none =>
            (.ok (.pPending (.rInst ⟨n + 1, n, b, _env e⟩)), n + 2,
             [HostOp.instFromBytesOp])

/-- Outcome of the `EmWasm` entry point; its accessor closure captures the
already decoded bytes instead of `d`. -/
inductive EmOutcome (Env : Type) where
  | accessor (t : OutputType) (s : Bool) (b : List Nat) (e : Option Env)
  | registered (dfn : IWasmDefinition Env)
  | failure (msg : String)

/-- The `EmWasm` entry point; for a compiled Definition it decodes `d` once,
eagerly, before building the accessor. -/
def EmWasm (hasBuffer : Bool) (ctx : Option Unit) (dfn : IWasmDefinition Env) :
    EmOutcome Env × List HostOp :=
  if truthyStr dfn.d then
    (.accessor dfn.t dfn.s (_dec hasBuffer (dfn.d.getD "")) dfn.e, [HostOp.decodeOp])
  else
    match ctx with
    | none => (.failure "must run \"emwasm\"", [])
    | some _ => (.registered dfn, [])

/-! ## Observational comparison of the two implementations -/

/-- Host-object identities erased: what a caller can observe of a result
without comparing object references (byte content, import object, promise
vs. plain value, rejection payload). -/
inductive ObsRes (Env : Type) where
  | oBytes : List Nat → ObsRes Env
  | oMod : List Nat → ObsRes Env
  | oInst : List Nat → Option (List (String × Env)) → ObsRes Env
  | oPromise : ObsRes Env → ObsRes Env
  | oRejected : Nat → ObsRes Env
deriving DecidableEq

/-- Identity-erasing observation of a call result. -/
def obs : CallRes Env → ObsRes Env
  | .rBytes b => .oBytes b
  | .rMod m => .oMod m.src
  | .rInst i => .oInst i.src i.imports
  | .pResolved r => .oPromise (obs r)
  | .pPending r => .oPromise (obs r)
  | .pRejected err => .oRejected err

/-- Observation of a call result or thrown error. -/
def obsE : Except Nat (CallRes Env) → Except Nat (ObsRes Env)
  | .ok r => .ok (obs r)
  | .error err => .error err

/-- Cache states reachable for data `d`: each filled slot holds exactly the
decode of `d`, respectively a module compiled from it. -/
def Consistent (hasBuffer : Bool) (d : String) (σ : LoaderState) : Prop :=
  (σ.bytes = none ∨ σ.bytes = some (_dec hasBuffer d)) ∧
  (∀ m, σ.mod = some m → m.src = _dec hasBuffer d)

/-! ## Claim theorems -/

/-- Well-shaped Definitions per the data model (spec 3): the authoring shape
has no `d` at all, the compiled shape carries a base64 string of raw wasm
bytes, hence a non-empty `d`. -/
def WellShaped (dfn : IWasmDefinition Env) : Prop :=
  dfn.d = none ∨ ∃ str, dfn.d = some str ∧ str ≠ ""

/-- Claim C1: the Loader entry point has exactly one of three outcomes, decided
structurally by the `d` field: with `d` it returns the zero-argument
accessor; without `d` it registers the Definition with the capture context
when one exists, and fails otherwise. -/
theorem inwasm_entry_trichotomy (ctx : Option Unit) (dfn : IWasmDefinition Env)
    (hw : WellShaped dfn) :
    (InWasm ctx dfn).1 =
      (if dfn.d.isSome then
        LoaderOutcome.accessor dfn.t dfn.s (dfn.d.getD "") dfn.e
       else
        match ctx with
        | some _ => LoaderOutcome.registered dfn
        | none => LoaderOutcome.failure "must run \"inwasm\"") := by
  rcases hw with hnone | ⟨str, hsome, hne⟩
  · simp [InWasm, truthyStr, hnone]
    cases ctx <;> rfl
  · have hie : str.isEmpty = false := by
      rw [Bool.eq_false_iff]
      intro hcontra
      exact hne ((String.isEmpty_iff str).mp hcontra)
    have htr : truthyStr dfn.d = true := by simp [truthyStr, hsome, hie]
    simp [InWasm, hsome] at htr ⊢
    simp [htr]

/-- Witness for C1 at a concrete compiled and a concrete authoring
Definition. -/
theorem inwasm_entry_trichotomy_witness :
    (InWasm none (⟨"add", .MODULE, true, some "AGFzbQ==", none, ""⟩ :
        IWasmDefinition Unit)).1 =
      LoaderOutcome.accessor .MODULE true "AGFzbQ==" none ∧
    (InWasm none (⟨"add", .MODULE, true, none, none, "int f()"⟩ :
        IWasmDefinition Unit)).1 =
      LoaderOutcome.failure "must run \"inwasm\"" := by
  constructor
  · exact inwasm_entry_trichotomy none _ (Or.inr ⟨"AGFzbQ==", rfl, by decide⟩)
  · exact inwasm_entry_trichotomy none _ (Or.inl rfl)

/-- Claim C5: on an authoring-shaped Definition with no capture context the entry
point throws its single Loader-defined error and does nothing else (no codec
or host engine work, no accessor and hence no cache); conversely that is the
only situation in which the Loader itself fails. -/
theorem inwasm_missing_compile_step (ctx : Option Unit)
    (dfn : IWasmDefinition Env) :
    (ctx = none → truthyStr dfn.d = false →
        InWasm ctx dfn = (LoaderOutcome.failure "must run \"inwasm\"", [])) ∧
    (∀ msg, (InWasm ctx dfn).1 = LoaderOutcome.failure msg →
        ctx = none ∧ truthyStr dfn.d = false ∧ msg = "must run \"inwasm\"" ∧
        (InWasm ctx dfn).2 = []) := by
  constructor
  · intro hctx hd
    simp [InWasm, hd, hctx]
  · intro msg hmsg
    by_cases hd : truthyStr dfn.d = true
    · simp [InWasm, hd] at hmsg
    · cases ctx with
      | none =>
          have hfail : (InWasm none dfn).1 =
              LoaderOutcome.failure "must run \"inwasm\"" := by
            simp [InWasm, eq_false_of_ne_true hd]
          rw [hfail] at hmsg
          refine ⟨rfl, eq_false_of_ne_true hd, ?_, ?_⟩
          · injection hmsg with hm
            exact hm.symm
          · simp [InWasm, eq_false_of_ne_true hd]
      | some u =>
          simp [InWasm, eq_false_of_ne_true hd] at hmsg

/-- Witness for C5 at a concrete authoring Definition. -/
theorem inwasm_missing_compile_step_witness :
    InWasm none (⟨"add", .BYTES, true, none, none, "int f()"⟩ :
        IWasmDefinition Unit) =
      (LoaderOutcome.failure "must run \"inwasm\"", []) :=
  (inwasm_missing_compile_step none _).1 rfl rfl

/-- Claim C10: the entry point reads the Definition without changing it (the
registered outcome carries the untouched Definition), and the accessor it
returns is determined by the values of `t`, `s`, `d`, `e` captured at entry
time: two Definitions agreeing on those four fields yield identical
accessors, whatever their other fields do afterwards. -/
theorem inwasm_accessor_depends_only_on_tsde (ctx : Option Unit)
    (dfn dfn' : IWasmDefinition Env)
    (ht : dfn.t = dfn'.t) (hs : dfn.s = dfn'.s) (hd : dfn.d = dfn'.d)
    (he : dfn.e = dfn'.e) :
    InWasm ctx dfn = InWasm ctx dfn' ∨
      ((InWasm ctx dfn).1 = LoaderOutcome.registered dfn ∧
       (InWasm ctx dfn').1 = LoaderOutcome.registered dfn') := by
  by_cases htr : truthyStr dfn.d = true
  · left
    simp [InWasm, htr, hd ▸ htr, ht, hs, hd, he]
  · have htr' : truthyStr dfn'.d ≠ true := hd ▸ htr
    cases ctx with
    | none =>
        left
        simp [InWasm, eq_false_of_ne_true htr, eq_false_of_ne_true htr']
    | some u =>
        right
        simp [InWasm, eq_false_of_ne_true htr, eq_false_of_ne_true htr']

/-- Witness for C10: two compiled Definitions differing in `name` and `code`
but agreeing on `t`, `s`, `d`, `e` produce the same accessor. -/
theorem inwasm_accessor_depends_only_on_tsde_witness :
    InWasm none (⟨"a", .BYTES, true, some "AGFzbQ==", none, ""⟩ :
        IWasmDefinition Unit) =
      InWasm none (⟨"b", .BYTES, true, some "AGFzbQ==", none, "x"⟩ :
        IWasmDefinition Unit) ∨
    ((InWasm none (⟨"a", .BYTES, true, some "AGFzbQ==", none, ""⟩ :
        IWasmDefinition Unit)).1 =
      LoaderOutcome.registered ⟨"a", .BYTES, true, some "AGFzbQ==", none, ""⟩ ∧
     (InWasm none (⟨"b", .BYTES, true, some "AGFzbQ==", none, "x"⟩ :
        IWasmDefinition Unit)).1 =
      LoaderOutcome.registered ⟨"b", .BYTES, true, some "AGFzbQ==", none, "x"⟩) :=
  inwasm_accessor_depends_only_on_tsde none _ _ rfl rfl rfl rfl

/-- Claim C3: the BYTES accessor returns the identical cached byte sequence on
every call after the first, so `d` is decoded at most once; decoding is
deterministic and binary-exact on both platform paths (round-trip law),
the fallback path mapping the `atob` string to its character code units. -/
theorem inwasm_bytes_identity_roundtrip (hB : Bool) (s : Bool) (d : String)
    (e : Option Env) :
    (∀ (σ : LoaderState) (b : List Nat) (h : HostBeh), σ.bytes = some b →
        inwasmCall hB .BYTES s d e σ h =
          (.ok (if s then CallRes.rBytes b else .pResolved (.rBytes b)),
           σ, [])) ∧
    (∀ (σ : LoaderState) (h : HostBeh), σ.bytes = none →
        inwasmCall hB .BYTES s d e σ h =
          (.ok (if s then CallRes.rBytes (_dec hB d)
                else .pResolved (.rBytes (_dec hB d))),
           { σ with bytes := some (_dec hB d) }, [HostOp.decodeOp])) ∧
    (∀ bs : List Nat, (∀ b ∈ bs, b < 256) →
        _dec true (b64encodeS bs) = bs ∧ _dec false (b64encodeS bs) = bs) := by
  refine ⟨?_, ?_, ?_⟩
  · intro σ b h hσ
    cases s <;> simp [inwasmCall, getBytes, hσ]
  · intro σ h hσ
    cases s <;> simp [inwasmCall, getBytes, hσ]
  · intro bs hbs
    exact ⟨_dec_roundtrip true bs hbs, _dec_roundtrip false bs hbs⟩

/-- Witness for C3: decoding the four wasm magic bytes round-trips on both
paths, and a second invocation returns the cached sequence with no work. -/
theorem inwasm_bytes_identity_roundtrip_witness :
    (⟨some [0, 97, 115, 109], none, 0⟩ : LoaderState).bytes =
        some [0, 97, 115, 109] ∧
    inwasmCall true .BYTES true "AGFzbQ==" (none : Option Unit)
        ⟨some [0, 97, 115, 109], none, 0⟩ benign =
      (.ok (.rBytes [0, 97, 115, 109]), ⟨some [0, 97, 115, 109], none, 0⟩, []) ∧
    (∀ b ∈ [0, 97, 115, 109], b < 256) ∧
    _dec true (b64encodeS [0, 97, 115, 109]) = [0, 97, 115, 109] ∧
    _dec false (b64encodeS [0, 97, 115, 109]) = [0, 97, 115, 109] := by
  have h1 := (inwasm_bytes_identity_roundtrip true true "AGFzbQ=="
      (none : Option Unit)).1 ⟨some [0, 97, 115, 109], none, 0⟩
      [0, 97, 115, 109] benign rfl
  have h3 := (inwasm_bytes_identity_roundtrip true true "AGFzbQ=="
      (none : Option Unit)).2.2 [0, 97, 115, 109] (by decide)
  exact ⟨rfl, by simpa using h1, by decide, h3.1, h3.2⟩

/-- Claim C2: the MODULE accessor compiles at most once.  A call with the module
slot filled returns exactly the cached module (as an already-resolved
promise in ASYNC mode) with no decode or compile work and no state change;
the first successful call fills the slot with the module it returns; and
once the slot is filled any sequence of further calls performs no work at
all and never changes the state. -/
theorem inwasm_module_compiled_once (hB : Bool) (s : Bool) (d : String)
    (e : Option Env) :
    (∀ (σ : LoaderState) (m : WModule) (h : HostBeh), σ.mod = some m →
        inwasmCall hB .MODULE s d e σ h =
          (.ok (if s then CallRes.rMod m else .pResolved (.rMod m)),
           σ, [])) ∧
    (∀ (σ : LoaderState) (h : HostBeh), σ.mod = none → h.compileErr = none →
        ∃ m : WModule,
          (inwasmCall hB .MODULE s d e σ h).1 =
            .ok (if s then CallRes.rMod m else .pPending (.rMod m)) ∧
          ((inwasmCall hB .MODULE s d e σ h).2.1).mod = some m) ∧
    (∀ (σ : LoaderState) (m : WModule) (behs : List HostBeh), σ.mod = some m →
        runSeq hB .MODULE s d e σ behs = σ ∧
        runSeqOps hB .MODULE s d e σ behs = []) := by
  have hcached : ∀ (σ : LoaderState) (m : WModule) (h : HostBeh),
      σ.mod = some m →
      inwasmCall hB .MODULE s d e σ h =
        (.ok (if s then CallRes.rMod m else .pResolved (.rMod m)), σ, []) := by
    intro σ m h hσ
    cases s <;> simp [inwasmCall, hσ]
  refine ⟨hcached, ?_, ?_⟩
  · intro σ h hσ hok
    refine ⟨⟨σ.nextId, σ.bytes.getD (_dec hB d)⟩, ?_⟩
    rcases hb : σ.bytes with _ | b <;>
      cases s <;> simp [inwasmCall, getBytes, hσ, hok, hb]
  · intro σ m behs hσ
    induction behs with
    | nil => exact ⟨rfl, rfl⟩
    | cons h hs ih =>
        have hc := hcached σ m h hσ
        constructor
        · show runSeq hB .MODULE s d e (inwasmCall hB .MODULE s d e σ h).2.1 hs = σ
          rw [hc]
          exact ih.1
        · show (inwasmCall hB .MODULE s d e σ h).2.2 ++
              runSeqOps hB .MODULE s d e (inwasmCall hB .MODULE s d e σ h).2.1 hs = []
          rw [hc]
          simpa using ih.2

/-- Witness for C2: with the module slot filled, a SYNC call and a module
slot check behave as stated at a concrete state. -/
theorem inwasm_module_compiled_once_witness :
    (⟨some [0], some ⟨7, [0]⟩, 8⟩ : LoaderState).mod = some ⟨7, [0]⟩ ∧
    inwasmCall true .MODULE true "" (none : Option Unit)
        ⟨some [0], some ⟨7, [0]⟩, 8⟩ benign =
      (.ok (.rMod ⟨7, [0]⟩), ⟨some [0], some ⟨7, [0]⟩, 8⟩, []) := by
  have h := (inwasm_module_compiled_once true true ""
      (none : Option Unit)).1 ⟨some [0], some ⟨7, [0]⟩, 8⟩ ⟨7, [0]⟩ benign rfl
  exact ⟨rfl, by simpa using h⟩

/-- Instance extracted from a call result, when the call produced one. -/
def producedInst : Except Nat (CallRes Env) → Option (WInstance Env)
  | .ok (.rInst i) => some i
  | .ok (.pPending (.rInst i)) => some i
  | _ => none

/-- Claim C4 counterexample: the import object built by the runtime helper always
uses the literal key "env", with the `e` value itself as the environment
value; at `e` distinct from "env" the claimed shape (sole top-level key
named by `e`) fails. -/
theorem env_import_key_counterexample :
    _env (some "foo" : Option String) = some [("env", "foo")] ∧
    ¬ (∃ v : String,
        _env (some "foo" : Option String) = some [("foo", v)]) := by
  constructor
  · rfl
  · rintro ⟨v, hv⟩
    simp only [_env, Option.some.injEq, List.cons.injEq, Prod.mk.injEq] at hv
    exact absurd hv.1.1 (by decide)

/-- Claim C4 amended: when `e` is unset no import argument is passed at all
(absence, not an empty object); when `e` is set the import object has
exactly one top-level key, which is always the literal "env" (matching the
claim precisely when `e` denotes the conventional "env" namespace), and
every instance the INSTANCE accessor produces carries exactly that import
argument. -/
theorem env_import_amended (hB : Bool) (s : Bool) (d : String) :
    (_env (none : Option Env) = none) ∧
    (∀ v : Env, _env (some v) = some [("env", v)] ∧
        (([("env", v)] : List (String × Env)).map Prod.fst) = ["env"]) ∧
    (∀ (e : Option Env) (σ : LoaderState) (h : HostBeh) (i : WInstance Env),
        producedInst (inwasmCall hB .INSTANCE s d e σ h).1 = some i →
        i.imports = _env e) := by
  refine ⟨rfl, fun v => ⟨rfl, rfl⟩, ?_⟩
  intro e σ h i hi
  rcases σ with ⟨sb, sm, nid⟩
  rcases h with ⟨hc, hin⟩
  cases s <;> cases sm <;> cases sb <;> cases hc <;> cases hin <;>
    simp [inwasmCall, getBytes, producedInst] at hi <;>
    simp [← hi]

/-- Witness for C4 at a concrete state with a cached module and `e` set. -/
theorem env_import_amended_witness :
    producedInst (inwasmCall true .INSTANCE true ""
        (some ()) ⟨some [0], some ⟨0, [0]⟩, 1⟩ benign).1 =
      some ⟨1, 0, [0], _env (some ())⟩ ∧
    (⟨1, 0, [0], _env (some ())⟩ : WInstance Unit).imports = _env (some ()) := by
  refine ⟨by decide, (env_import_amended true true "").2.2 (some ())
    ⟨some [0], some ⟨0, [0]⟩, 1⟩ benign _ (by decide)⟩

/-- Claim C6: the ASYNC INSTANCE accessor instantiates directly from the cached
module when one exists (no decode, no compile, module slot untouched);
otherwise it instantiates from the cached-or-newly-decoded bytes and, as a
side effect of that instantiation resolving, stores the module it produced
into the cache, so the cached-module path applies to all later calls. -/
theorem inwasm_instance_async_caches_module (hB : Bool) (d : String)
    (e : Option Env) :
    (∀ (σ : LoaderState) (m : WModule), σ.mod = some m →
        inwasmCall hB .INSTANCE false d e σ benign =
          (.ok (.pPending (.rInst ⟨σ.nextId, m.id, m.src, _env e⟩)),
           { σ with nextId := σ.nextId + 1 }, [HostOp.instFromModOp])) ∧
    (∀ σ : LoaderState, σ.mod = none →
        inwasmCall hB .INSTANCE false d e σ benign =
          (.ok (.pPending (.rInst ⟨σ.nextId + 1, σ.nextId,
              σ.bytes.getD (_dec hB d), _env e⟩)),
           ⟨some (σ.bytes.getD (_dec hB d)),
            some ⟨σ.nextId, σ.bytes.getD (_dec hB d)⟩, σ.nextId + 2⟩,
           (if σ.bytes.isSome then [] else [HostOp.decodeOp]) ++
             [HostOp.instFromBytesOp])) := by
  constructor
  · intro σ m hσ
    simp [inwasmCall, benign, hσ]
  · intro σ hσ
    rcases σ with ⟨sb, sm, nid⟩
    cases sm with
    | some m => cases hσ
    | none =>
        cases sb <;> simp [inwasmCall, getBytes, benign]

/-- Witness for C6 at a concrete cached-module state. -/
theorem inwasm_instance_async_caches_module_witness :
    (⟨some [0], some ⟨3, [0]⟩, 4⟩ : LoaderState).mod = some ⟨3, [0]⟩ ∧
    inwasmCall true .INSTANCE false "" (none : Option Unit)
        ⟨some [0], some ⟨3, [0]⟩, 4⟩ benign =
      (.ok (.pPending (.rInst ⟨4, 3, [0], _env none⟩)),
       ⟨some [0], some ⟨3, [0]⟩, 5⟩, [HostOp.instFromModOp]) := by
  have h := (inwasm_instance_async_caches_module true ""
      (none : Option Unit)).1 ⟨some [0], some ⟨3, [0]⟩, 4⟩ ⟨3, [0]⟩ rfl
  exact ⟨rfl, by simpa using h⟩

theorem inwasmCall_nextId_mono (hB : Bool) (t : OutputType) (s : Bool)
    (d : String) (e : Option Env) (σ : LoaderState) (h : HostBeh) :
    σ.nextId ≤ ((inwasmCall hB t s d e σ h).2.1).nextId := by
  rcases σ with ⟨sb, sm, nid⟩
  rcases h with ⟨hc, hin⟩
  cases t <;> cases s <;> cases sm <;> cases sb <;> cases hc <;> cases hin <;>
    simp [inwasmCall, getBytes] <;> omega

theorem runSeq_nextId_mono (hB : Bool) (t : OutputType) (s : Bool)
    (d : String) (e : Option Env) (σ : LoaderState) (behs : List HostBeh) :
    σ.nextId ≤ (runSeq hB t s d e σ behs).nextId := by
  induction behs generalizing σ with
  | nil => exact Nat.le_refl _
  | cons h hs ih =>
      exact Nat.le_trans (inwasmCall_nextId_mono hB t s d e σ h)
        (ih (inwasmCall hB t s d e σ h).2.1)

/-- Identity of a produced instance lies inside the identity range consumed
by its call: at least the entry counter, strictly below the exit counter. -/
theorem producedInst_id_bounds (hB : Bool) (t : OutputType) (s : Bool)
    (d : String) (e : Option Env) (σ : LoaderState) (h : HostBeh)
    (i : WInstance Env)
    (hi : producedInst (inwasmCall hB t s d e σ h).1 = some i) :
    σ.nextId ≤ i.id ∧ i.id < ((inwasmCall hB t s d e σ h).2.1).nextId := by
  rcases σ with ⟨sb, sm, nid⟩
  rcases h with ⟨hc, hin⟩
  cases t <;> cases s <;> cases sm <;> cases sb <;> cases hc <;> cases hin <;>
    simp [inwasmCall, getBytes, producedInst] at hi <;>
    simp [inwasmCall, getBytes, ← hi] <;> omega

/-- Claim C7: the SYNC INSTANCE accessor synchronously constructs a new instance
on each call from the cached module, compiling the module (once, and caching
it) only when the slot is empty; instances produced by any two calls of the
accessor, however separated, are distinct objects. -/
theorem inwasm_instance_sync_fresh (hB : Bool) (d : String) (e : Option Env) :
    (∀ (σ : LoaderState) (m : WModule), σ.mod = some m →
        inwasmCall hB .INSTANCE true d e σ benign =
          (.ok (.rInst ⟨σ.nextId, m.id, m.src, _env e⟩),
           { σ with nextId := σ.nextId + 1 }, [HostOp.instFromModOp])) ∧
    (∀ σ : LoaderState, σ.mod = none →
        inwasmCall hB .INSTANCE true d e σ benign =
          (.ok (.rInst ⟨σ.nextId + 1, σ.nextId,
              σ.bytes.getD (_dec hB d), _env e⟩),
           ⟨some (σ.bytes.getD (_dec hB d)),
            some ⟨σ.nextId, σ.bytes.getD (_dec hB d)⟩, σ.nextId + 2⟩,
           (if σ.bytes.isSome then [] else [HostOp.decodeOp]) ++
             [HostOp.compileOp, HostOp.instFromModOp])) ∧
    (∀ (σ : LoaderState) (h₁ h₂ : HostBeh) (behs : List HostBeh)
        (i₁ i₂ : WInstance Env),
        producedInst (inwasmCall hB .INSTANCE true d e σ h₁).1 = some i₁ →
        producedInst (inwasmCall hB .INSTANCE true d e
          (runSeq hB .INSTANCE true d e
            (inwasmCall hB .INSTANCE true d e σ h₁).2.1 behs) h₂).1 = some i₂ →
        i₁.id ≠ i₂.id) := by
  refine ⟨?_, ?_, ?_⟩
  · intro σ m hσ
    simp [inwasmCall, benign, hσ]
  · intro σ hσ
    rcases σ with ⟨sb, sm, nid⟩
    cases sm with
    | some m => cases hσ
    | none => cases sb <;> simp [inwasmCall, getBytes, benign]
  · intro σ h₁ h₂ behs i₁ i₂ h1 h2
    have b1 := producedInst_id_bounds hB .INSTANCE true d e σ h₁ i₁ h1
    have b2 := producedInst_id_bounds hB .INSTANCE true d e _ h₂ i₂ h2
    have hmono := runSeq_nextId_mono hB .INSTANCE true d e
      (inwasmCall hB .INSTANCE true d e σ h₁).2.1 behs
    omega

/-- Witness for C7: two consecutive calls at a concrete cached-module state
yield instances with distinct identities. -/
theorem inwasm_instance_sync_fresh_witness :
    producedInst (inwasmCall true .INSTANCE true "" (none : Option Unit)
        ⟨some [0], some ⟨0, [0]⟩, 1⟩ benign).1 =
      some (⟨1, 0, [0], none⟩ : WInstance Unit) ∧
    producedInst (inwasmCall true .INSTANCE true "" (none : Option Unit)
        (runSeq true .INSTANCE true "" (none : Option Unit)
          (inwasmCall true .INSTANCE true "" (none : Option Unit)
            ⟨some [0], some ⟨0, [0]⟩, 1⟩ benign).2.1 []) benign).1 =
      some (⟨2, 0, [0], none⟩ : WInstance Unit) ∧
    ((⟨1, 0, [0], none⟩ : WInstance Unit)).id ≠
      ((⟨2, 0, [0], none⟩ : WInstance Unit)).id := by
  refine ⟨by decide, by decide, ?_⟩
  exact (inwasm_instance_sync_fresh true ""
      (none : Option Unit)).2.2 ⟨some [0], some ⟨0, [0]⟩, 1⟩ benign benign []
      ⟨1, 0, [0], none⟩ ⟨2, 0, [0], none⟩ (by decide) (by decide)

/-- Claim C8 counterexample: a first MODULE SYNC call whose host compile fails
does propagate the host error, but does not leave the state unchanged: the
decode succeeded before the compile ran, so the bytes slot is now filled. -/
theorem inwasm_error_state_counterexample :
    (inwasmCall true .MODULE true "AGFzbQ==" (none : Option Unit)
        ⟨none, none, 0⟩ ⟨some 5, none⟩).1 = .error 5 ∧
    (inwasmCall true .MODULE true "AGFzbQ==" (none : Option Unit)
        ⟨none, none, 0⟩ ⟨some 5, none⟩).2.1 ≠ ⟨none, none, 0⟩ := by
  constructor
  · rfl
  · decide

/-- Claim C8 amended: the Loader never retries.  A failing host call makes that
invocation fail with the host error propagated unchanged; the slot of the
failed operation stays as it was — in particular a failed compile never
fills the module slot — although slots filled by sub-operations that
succeeded earlier in the same invocation (decoded bytes before a failing
compile, a compiled module before a failing instantiate) are kept; and a
subsequent call under a well-behaved host redoes the work independently and
succeeds. -/
theorem inwasm_no_retry_error_propagation (hB : Bool) (d : String)
    (e : Option Env) :
    (∀ (t : OutputType) (s : Bool) (σ : LoaderState) (h : HostBeh) (err : Nat),
        (inwasmCall hB t s d e σ h).1 = .error err →
        h.compileErr = some err ∨ h.instErr = some err) ∧
    (∀ (t : OutputType) (s : Bool) (σ : LoaderState) (h : HostBeh) (err : Nat),
        (inwasmCall hB t s d e σ h).1 = .ok (.pRejected err) →
        h.compileErr = some err ∨ h.instErr = some err) ∧
    (∀ (t : OutputType) (s : Bool) (σ : LoaderState) (h : HostBeh),
        h.compileErr.isSome →
        ((inwasmCall hB t s d e σ h).2.1).mod = σ.mod) ∧
    (∀ (t : OutputType) (s : Bool) (σ : LoaderState) (h : HostBeh),
        ((inwasmCall hB t s d e σ h).2.1).bytes = σ.bytes ∨
        ((inwasmCall hB t s d e σ h).2.1).bytes = some (_dec hB d)) ∧
    (∀ (t : OutputType) (s : Bool) (σ : LoaderState) (err : Nat),
        (inwasmCall hB t s d e σ benign).1 ≠ .error err ∧
        (inwasmCall hB t s d e σ benign).1 ≠ .ok (.pRejected err)) := by
  refine ⟨?_, ?_, ?_, ?_, ?_⟩
  · intro t s σ h err hres
    rcases σ with ⟨sb, sm, nid⟩
    rcases h with ⟨hc, hin⟩
    cases t <;> cases s <;> cases sm <;> cases sb <;> cases hc <;> cases hin <;>
      simp_all [inwasmCall, getBytes]
  · intro t s σ h err hres
    rcases σ with ⟨sb, sm, nid⟩
    rcases h with ⟨hc, hin⟩
    cases t <;> cases s <;> cases sm <;> cases sb <;> cases hc <;> cases hin <;>
      simp_all [inwasmCall, getBytes]
  · intro t s σ h hc
    rcases σ with ⟨sb, sm, nid⟩
    rcases h with ⟨hce, hin⟩
    cases t <;> cases s <;> cases sm <;> cases sb <;> cases hce <;> cases hin <;>
      simp_all [inwasmCall, getBytes]
  · intro t s σ h
    rcases σ with ⟨sb, sm, nid⟩
    rcases h with ⟨hce, hin⟩
    cases t <;> cases s <;> cases sm <;> cases sb <;> cases hce <;> cases hin <;>
      simp [inwasmCall, getBytes]
  · intro t s σ err
    rcases σ with ⟨sb, sm, nid⟩
    cases t <;> cases s <;> cases sm <;> cases sb <;>
      simp [inwasmCall, getBytes, benign]

/-- Witness for C8: a failing compile on a fresh MODULE SYNC call propagates
the injected host error and leaves the module slot empty. -/
theorem inwasm_no_retry_error_propagation_witness :
    ((inwasmCall true .MODULE true "AGFzbQ==" (none : Option Unit)
        ⟨none, none, 0⟩ ⟨some 5, none⟩).1 = .error 5 →
      (⟨some 5, none⟩ : HostBeh).compileErr = some 5 ∨
      (⟨some 5, none⟩ : HostBeh).instErr = some 5) ∧
    ((⟨(some 5 : Option Nat), (none : Option Nat)⟩ : HostBeh).compileErr.isSome →
      ((inwasmCall true .MODULE true "AGFzbQ==" (none : Option Unit)
          ⟨none, none, 0⟩ ⟨some 5, none⟩).2.1).mod = (⟨none, none, 0⟩ : LoaderState).mod) := by
  constructor
  · exact (inwasm_no_retry_error_propagation true "AGFzbQ=="
      (none : Option Unit)).1 .MODULE true ⟨none, none, 0⟩ ⟨some 5, none⟩ 5
  · intro hs
    exact (inwasm_no_retry_error_propagation true "AGFzbQ=="
      (none : Option Unit)).2.2.1 .MODULE true ⟨none, none, 0⟩ ⟨some 5, none⟩ hs

/-- Module extracted from a call result, when the call produced one;
module identity models reference equality of the JS object. -/
def producedMod : Except Nat (CallRes Env) → Option WModule
  | .ok (.rMod m) => some m
  | .ok (.pResolved (.rMod m)) => some m
  | .ok (.pPending (.rMod m)) => some m
  | _ => none

/-- Claim C9 counterexample: at a concrete compiled MODULE SYNC Definition the
InWasm accessor returns the same module object on both of its first two
calls, while the EmWasm accessor compiles afresh and returns a different
module object on its second call — the two implementations are not
observationally equivalent in the claimed sense. -/
theorem loaders_not_equivalent_counterexample :
    producedMod (inwasmCall true .MODULE true "AGFzbQ==" (none : Option Unit)
        (inwasmCall true .MODULE true "AGFzbQ==" (none : Option Unit)
          ⟨none, none, 0⟩ benign).2.1 benign).1 =
      producedMod (inwasmCall true .MODULE true "AGFzbQ==" (none : Option Unit)
        ⟨none, none, 0⟩ benign).1 ∧
    producedMod (emwasmCall .MODULE true (_dec true "AGFzbQ==")
        (none : Option Unit)
        (emwasmCall .MODULE true (_dec true "AGFzbQ==") (none : Option Unit)
          0 benign).2.1 benign).1 ≠
      producedMod (emwasmCall .MODULE true (_dec true "AGFzbQ==")
        (none : Option Unit) 0 benign).1 := by
  constructor
  · decide
  · decide

/-- Claim C9 amended: the two entry points raise, respectively register, under
exactly the same conditions; and on every consistently cached state, under
successful host operations, the two accessors produce results that agree on
everything except host object identity — same byte sequences for BYTES,
modules compiled from the same bytes for MODULE, instances built from the
same bytes and the same import object for INSTANCE — while InWasm caches
(preserving consistency) and EmWasm recompiles per call, so repeated MODULE
results are reference-equal only for InWasm. -/
theorem loaders_equivalent_amended (hB : Bool) :
    (∀ (ctx : Option Unit) (dfn : IWasmDefinition Env),
        ((InWasm ctx dfn).1 = LoaderOutcome.failure "must run \"inwasm\"" ↔
         (EmWasm hB ctx dfn).1 = EmOutcome.failure "must run \"emwasm\"") ∧
        ((InWasm ctx dfn).1 = LoaderOutcome.registered dfn ↔
         (EmWasm hB ctx dfn).1 = EmOutcome.registered dfn)) ∧
    (∀ (t : OutputType) (s : Bool) (d : String) (e : Option Env)
        (σ : LoaderState) (n : Nat), Consistent hB d σ →
        obsE (inwasmCall hB t s d e σ benign).1 =
          obsE (emwasmCall t s (_dec hB d) e n benign).1 ∧
        Consistent hB d (inwasmCall hB t s d e σ benign).2.1) := by
  constructor
  · intro ctx dfn
    by_cases htr : truthyStr dfn.d = true
    · constructor <;> simp [InWasm, EmWasm, htr]
    · cases ctx <;>
        constructor <;> simp [InWasm, EmWasm, eq_false_of_ne_true htr]
  · intro t s d e σ n hcons
    obtain ⟨hbytes, hmod⟩ := hcons
    rcases σ with ⟨sb, sm, nid⟩
    cases t <;> cases s <;> cases sm <;> cases sb <;>
      simp_all [inwasmCall, emwasmCall, getBytes, obsE, obs, Consistent, benign]

/-- Witness for C9 amended at a concrete cached state and Definition. -/
theorem loaders_equivalent_amended_witness :
    Consistent true "AGFzbQ=="
      (⟨some (_dec true "AGFzbQ=="), none, 0⟩ : LoaderState) ∧
    obsE (inwasmCall true .MODULE true "AGFzbQ==" (none : Option Unit)
        ⟨some (_dec true "AGFzbQ=="), none, 0⟩ benign).1 =
      obsE (emwasmCall .MODULE true (_dec true "AGFzbQ==")
        (none : Option Unit) 9 benign).1 := by
  have hcons : Consistent true "AGFzbQ=="
      (⟨some (_dec true "AGFzbQ=="), none, 0⟩ : LoaderState) := by
    exact ⟨Or.inr rfl, by intro m hm; cases hm⟩
  exact ⟨hcons, ((loaders_equivalent_amended true).2 .MODULE true "AGFzbQ=="
    (none : Option Unit) ⟨some (_dec true "AGFzbQ=="), none, 0⟩ 9 hcons).1⟩

end InwasmSpec
